import Mathlib

/-!
Verification of the conversion-and-playback orchestration layer of the
text-to-speech converter (source: `src/src/App.tsx`).

The embedding models the core handlers of `App.tsx` as pure Lean functions:
* `handleGenerate` (App.tsx lines 179-221): single-item generation;
* the history append performed inside `handleGenerate` (lines 211-213),
  factored as `appendHistory`;
* `processBatch` (lines 323-362): sequential batch run, modelled as the
  list of status-transition events it emits plus the list of calls it
  makes to the speech-generation collaborator;
* `updateBatchItem` (lines 311-317) and the batch editor's disabled
  predicate (line 805);
* the waveform/playback callbacks (lines 130-153) and `handleStop`
  (lines 233-239).

The asynchronous speech-generation collaborator `blink.ai.generateSpeech`
is modelled as an oracle `String → String → ℚ → Except String String`
(text, voice, speed ↦ error or url).  Numbers that are JS floats in the
source (speed, pitch, playback times) are modelled as rationals.
JavaScript `String.prototype.trim` is modelled by `jsTrim` over the ASCII
core of the ECMAScript whitespace class (the claims never involve the
exotic Unicode whitespace code points).
-/

/-- ASCII core of the ECMAScript whitespace class used by `trim`. -/
def isJsWhitespace (c : Char) : Bool :=
  c = ' ' || c = '\t' || c = '\n' || c = '\r' || c = '\x0b' || c = '\x0c'

/-- Drop whitespace from both ends of a character list. -/
def trimChars (l : List Char) : List Char :=
  ((l.dropWhile isJsWhitespace).reverse.dropWhile isJsWhitespace).reverse

/-- Model of JavaScript `text.trim()`. -/
def jsTrim (s : String) : String :=
  String.mk (trimChars s.data)

/-- `interface ConversionHistory` (App.tsx lines 20-28).  `createdAt`
is modelled as an abstract timestamp. -/
structure ConversionHistory where
  id : String
  text : String
  voice : String
  speed : ℚ
  pitch : ℚ
  audioUrl : String
  createdAt : Nat
deriving Repr, DecidableEq

/-- One call made to `blink.ai.generateSpeech` (its argument record). -/
structure SpeechCall where
  text : String
  voice : String
  speed : ℚ
deriving Repr, DecidableEq

/-- Outcome of `handleGenerate`: an early validation return, the catch
branch, or the success path carrying the new record. -/
inductive GenerateResult where
  | validationError (msg : String)
  | generationFailure (msg : String)
  | success (record : ConversionHistory)
deriving Repr, DecidableEq

/-- The slice of `App` component state that `handleGenerate` reads and
writes: the draft text/voice/speed/pitch, the current audio url, the in-
memory history and the persisted (localStorage) history.  The transient
`isGenerating` flag is set and reset inside the same call and is omitted. -/
structure AppState where
  text : String
  voice : String
  speed : ℚ
  pitch : ℚ
  currentAudio : Option String
  history : List ConversionHistory
  persisted : List ConversionHistory
deriving Repr, DecidableEq

/-- The history append of App.tsx line 211:
`[conversion, ...history.slice(0, 9)]`. -/
def appendHistory (record : ConversionHistory) (history : List ConversionHistory) :
    List ConversionHistory :=
  record :: history.take 9

/-- `handleGenerate` (App.tsx lines 179-221).  `oracle` models
`blink.ai.generateSpeech`; `newId` and `now` model `Date.now().toString()`
and `new Date()`.  Returns the outcome, the updated state, and the list of
collaborator calls made during the run. -/
def handleGenerate (oracle : String → String → ℚ → Except String String)
    (newId : String) (now : Nat) (s : AppState) :
    GenerateResult × AppState × List SpeechCall :=
  if jsTrim s.text = "" then
    (.validationError "Please enter some text to convert", s, [])
  else if s.text.length > 4000 then
    (.validationError "Text is too long. Please keep it under 4000 characters.", s, [])
  else
    match oracle (jsTrim s.text) s.voice s.speed with
    | .error _ =>
        (.generationFailure "Failed to generate speech. Please try again.", s,
         [⟨jsTrim s.text, s.voice, s.speed⟩])
    | .ok url =>
        let record : ConversionHistory :=
          { id := newId, text := jsTrim s.text, voice := s.voice,
            speed := s.speed, pitch := s.pitch, audioUrl := url, createdAt := now }
        let newHistory := appendHistory record s.history
        (.success record,
         { s with currentAudio := some url, history := newHistory,
                  persisted := newHistory },
         [⟨jsTrim s.text, s.voice, s.speed⟩])

/-- Batch item status (App.tsx line 33). -/
inductive BatchStatus where
  | pending
  | processing
  | completed
  | error
deriving Repr, DecidableEq

/-- `interface BatchItem` (App.tsx lines 30-36). -/
structure BatchItem where
  id : String
  text : String
  status : BatchStatus
  audioUrl : Option String
  errorDetail : Option String
deriving Repr, DecidableEq

/-- Status is terminal when it is `completed` or `error`. -/
def BatchStatus.isTerminal : BatchStatus → Bool
  | .completed => true
  | .error => true
  | _ => false

/-- One `setBatchItems` update emitted by `processBatch`
(App.tsx lines 333-337, 346-350, 352-356). -/
inductive BatchEvent where
  | setProcessing (id : String)
  | setCompleted (id : String) (url : String)
  | setError (id : String) (msg : String)
deriving Repr, DecidableEq

/-- The item id an event targets. -/
def BatchEvent.targetId : BatchEvent → String
  | .setProcessing i => i
  | .setCompleted i _ => i
  | .setError i _ => i

/-- Effect of one event on one item: each `setBatchItems` call in
`processBatch` maps over the item list and rewrites the item whose id
matches, leaving every other item untouched. -/
def applyToItem (e : BatchEvent) (i : BatchItem) : BatchItem :=
  match e with
  | .setProcessing j =>
      if i.id = j then { i with status := .processing } else i
  | .setCompleted j url =>
      if i.id = j then { i with status := .completed, audioUrl := some url } else i
  | .setError j msg =>
      if i.id = j then { i with status := .error, errorDetail := some msg } else i

/-- One `setBatchItems` functional update applied to the live item list. -/
def applyEvent (items : List BatchItem) (e : BatchEvent) : List BatchItem :=
  items.map (fun i => applyToItem e i)

/-- Replay a trace of `setBatchItems` updates. -/
def applyEvents (items : List BatchItem) (es : List BatchEvent) : List BatchItem :=
  es.foldl applyEvent items

/-- The filter of App.tsx line 324:
`batchItems.filter(item => item.text.trim())` (a JS string is truthy
exactly when it is non-empty). -/
def filterValid (items : List BatchItem) : List BatchItem :=
  items.filter (fun it => jsTrim it.text ≠ "")

/-- The `for (const item of validItems)` loop of App.tsx lines 332-358,
as the trace of `setBatchItems` updates it emits and the collaborator
calls it makes, in order.  Each iteration marks the item `processing`,
calls the oracle on the item's (snapshot) trimmed text with the run's
single voice and speed, then marks the item `completed` with the url or
`error` with the literal detail string from line 354. -/
def processBatchEvents (oracle : String → String → ℚ → Except String String)
    (v : String) (sp : ℚ) : List BatchItem → List BatchEvent × List SpeechCall
  | [] => ([], [])
  | it :: rest =>
    let tail := processBatchEvents oracle v sp rest
    match oracle (jsTrim it.text) v sp with
    | .ok url =>
        (.setProcessing it.id :: .setCompleted it.id url :: tail.1,
         ⟨jsTrim it.text, v, sp⟩ :: tail.2)
    | .error _ =>
        (.setProcessing it.id :: .setError it.id "Failed to generate" :: tail.1,
         ⟨jsTrim it.text, v, sp⟩ :: tail.2)

/-- Result of a `processBatch` invocation: the early validation return
of App.tsx lines 325-328 (which emits no event and makes no call), or a
completed run carrying its event trace and call list. -/
inductive BatchResult where
  | validationError
  | ran (events : List BatchEvent) (calls : List SpeechCall)
deriving Repr, DecidableEq

/-- `processBatch` (App.tsx lines 323-362).  `v` and `sp` are the `voice`
and `speed[0]` values captured by the handler's closure at invocation
time; `items` is the `batchItems` state at invocation time, from which
the loop's snapshot `validItems` is computed once (line 324).  The loop
reads only the snapshot and the captured `v`/`sp`; it never re-reads the
live `batchItems`, `voice` or `speed` state, so the trace is a function
of the invocation-time values alone, and later edits compose with the
trace through `applyEvent` without feeding back into it. -/
def processBatch (oracle : String → String → ℚ → Except String String)
    (v : String) (sp : ℚ) (items : List BatchItem) : BatchResult :=
  if (filterValid items).isEmpty then .validationError
  else
    .ran (processBatchEvents oracle v sp (filterValid items)).1
      (processBatchEvents oracle v sp (filterValid items)).2

/-- The ids sent to `processing`, in emission order. -/
def processingIds (es : List BatchEvent) : List String :=
  es.filterMap (fun e =>
    match e with
    | .setProcessing i => some i
    | _ => none)

/-- `updateBatchItem` (App.tsx lines 311-317): rewrites the text of the
matching item with no status guard. -/
def updateBatchItem (id text : String) (items : List BatchItem) : List BatchItem :=
  items.map (fun item => if item.id = id then { item with text := text } else item)

/-- The batch editor's `disabled` predicate (App.tsx line 805):
`disabled={item.status === 'processing'}`. -/
def batchTextareaDisabled (item : BatchItem) : Bool :=
  item.status = .processing

/-- `processBatch` touches only `batchItems`: the state it may update
during a run.  History is carried alongside to record that no event of a
batch run ever reaches it (the source's `processBatch` contains no
`setHistory` or `saveHistory` call). -/
structure BatchRunState where
  items : List BatchItem
  history : List ConversionHistory
  persisted : List ConversionHistory
deriving Repr, DecidableEq

/-- A batch event applied to the full state: only `items` changes. -/
def applyEventFull (s : BatchRunState) (e : BatchEvent) : BatchRunState :=
  { s with items := applyEvent s.items e }

/-- Replay a batch trace on the full state. -/
def applyEventsFull (s : BatchRunState) (es : List BatchEvent) : BatchRunState :=
  es.foldl applyEventFull s

/-- Playback state owned by the player card: the `isPlaying` flag and the
`progress` value (a percentage) driven by the WaveSurfer callbacks. -/
structure PlayerState where
  isPlaying : Bool
  progress : ℚ
deriving Repr, DecidableEq

/-- The normalized position derived at App.tsx line 136:
`getCurrentTime() / getDuration()` (before the `* 100` that turns it
into the stored percentage). -/
def positionFraction (t d : ℚ) : ℚ := t / d

/-- The value stored by the `audioprocess` callback (App.tsx line 136). -/
def audioprocessProgress (t d : ℚ) : ℚ := positionFraction t d * 100

/-- WaveSurfer callbacks wired in `initializeWaveform`
(App.tsx lines 130-153).  `audioprocess` carries the sampled
current-time/duration pair. -/
inductive WaveEvent where
  | ready
  | audioprocess (t d : ℚ)
  | finish
  | play
  | pause
deriving Repr, DecidableEq

/-- The state transition each WaveSurfer callback performs
(App.tsx lines 130-153). -/
def onWaveEvent (s : PlayerState) : WaveEvent → PlayerState
  | .ready => { s with progress := 0 }
  | .audioprocess t d => { s with progress := audioprocessProgress t d }
  | .finish => { isPlaying := false, progress := 0 }
  | .play => { s with isPlaying := true }
  | .pause => { s with isPlaying := false }

/-- `handleStop` (App.tsx lines 233-239): stops motion, resets progress. -/
def handleStop (s : PlayerState) : PlayerState :=
  { s with isPlaying := false, progress := 0 }

/-! ### Helper lemmas about the batch trace -/

/-- Oracle that always answers with the fixed url "u". -/
def constOracle : String → String → ℚ → Except String String :=
  fun _ _ _ => .ok "u"

/-- Oracle that answers with a url derived from the request text. -/
def audioOracle : String → String → ℚ → Except String String :=
  fun t _ _ => .ok ("https://audio/" ++ t)

/-- Oracle whose call always rejects. -/
def rejectOracle : String → String → ℚ → Except String String :=
  fun _ _ _ => .error "network"

/-- The app state of the concrete single-generation scenario. -/
def helloState : AppState :=
  { text := "Hello world", voice := "nova", speed := 1, pitch := 1,
    currentAudio := none, history := [], persisted := [] }

/-- The record produced in the concrete single-generation scenario. -/
def helloRecord : ConversionHistory :=
  { id := "1", text := "Hello world", voice := "nova", speed := 1, pitch := 1,
    audioUrl := "https://audio/Hello world", createdAt := 0 }

/-- The app state after the concrete single-generation scenario. -/
def helloState2 : AppState :=
  { text := "Hello world", voice := "nova", speed := 1, pitch := 1,
    currentAudio := some "https://audio/Hello world",
    history := [helloRecord], persisted := [helloRecord] }

/-- A sequence of appends, oldest first, as issued by repeated
successful generations. -/
def appendAll (rs : List ConversionHistory) (h : List ConversionHistory) :
    List ConversionHistory :=
  rs.foldl (fun acc r => appendHistory r acc) h

/-- A distinguishable sample record for the eviction scenario. -/
def mkRec (n : Nat) : ConversionHistory :=
  { id := "r", text := "t", voice := "nova", speed := 1, pitch := 1,
    audioUrl := "u", createdAt := n }

/-- Oracle answering a url derived from the text; used by the batch
scenarios. -/
def demoOracle : String → String → ℚ → Except String String :=
  fun t _ _ => .ok ("url-" ++ t)

/-- The batch `[A(valid), B(empty), C(valid)]` of the concrete scenario. -/
def demoItems : List BatchItem :=
  [{ id := "a", text := "Alpha", status := .pending, audioUrl := none,
     errorDetail := none },
   { id := "b", text := "  ", status := .pending, audioUrl := none,
     errorDetail := none },
   { id := "c", text := "Charlie", status := .pending, audioUrl := none,
     errorDetail := none }]

/-- The event trace of the concrete `[A, B, C]` scenario. -/
def demoEvents : List BatchEvent :=
  [.setProcessing "a", .setCompleted "a" "url-Alpha",
   .setProcessing "c", .setCompleted "c" "url-Charlie"]

/-- The call list of the concrete `[A, B, C]` scenario. -/
def demoCalls : List SpeechCall :=
  [⟨"Alpha", "nova", 1⟩, ⟨"Charlie", "nova", 1⟩]

/-- Oracle that rejects exactly the text "Bravo". -/
def bravoFailOracle : String → String → ℚ → Except String String :=
  fun t _ _ => if t = "Bravo" then .error "quota" else .ok ("url-" ++ t)

/-- The three-item batch of the mid-batch-failure scenario. -/
def failItems : List BatchItem :=
  [{ id := "1", text := "Alpha", status := .pending, audioUrl := none,
     errorDetail := none },
   { id := "2", text := "Bravo", status := .pending, audioUrl := none,
     errorDetail := none },
   { id := "3", text := "Charlie", status := .pending, audioUrl := none,
     errorDetail := none }]

/-- The event trace of the mid-batch-failure scenario. -/
def failEvents : List BatchEvent :=
  [.setProcessing "1", .setCompleted "1" "url-Alpha",
   .setProcessing "2", .setError "2" "Failed to generate",
   .setProcessing "3", .setCompleted "3" "url-Charlie"]

/-- The call list of the mid-batch-failure scenario. -/
def failCalls : List SpeechCall :=
  [⟨"Alpha", "nova", 1⟩, ⟨"Bravo", "nova", 1⟩, ⟨"Charlie", "nova", 1⟩]

theorem length_dropWhile_le (p : Char → Bool) (l : List Char) :
    (l.dropWhile p).length ≤ l.length := by
  induction l with
  | nil => simp [List.dropWhile]
  | cons c t ih =>
    by_cases h : p c
    · simp [List.dropWhile, h]
      exact Nat.le_succ_of_le ih
    · simp [List.dropWhile, h]

/-- Trimming never lengthens a string. -/
theorem jsTrim_length_le (s : String) : (jsTrim s).length ≤ s.length := by
  show (trimChars s.data).length ≤ s.data.length
  unfold trimChars
  calc ((s.data.dropWhile isJsWhitespace).reverse.dropWhile isJsWhitespace).reverse.length
      = ((s.data.dropWhile isJsWhitespace).reverse.dropWhile isJsWhitespace).length := by
        rw [List.length_reverse]
    _ ≤ (s.data.dropWhile isJsWhitespace).reverse.length :=
        length_dropWhile_le _ _
    _ = (s.data.dropWhile isJsWhitespace).length := by rw [List.length_reverse]
    _ ≤ s.data.length := length_dropWhile_le _ _

theorem applyToItem_id (e : BatchEvent) (i : BatchItem) :
    (applyToItem e i).id = i.id := by
  cases e with
  | setProcessing j => by_cases h : i.id = j <;> simp [applyToItem, h]
  | setCompleted j url => by_cases h : i.id = j <;> simp [applyToItem, h]
  | setError j msg => by_cases h : i.id = j <;> simp [applyToItem, h]

theorem applyToItem_text (e : BatchEvent) (i : BatchItem) :
    (applyToItem e i).text = i.text := by
  cases e with
  | setProcessing j => by_cases h : i.id = j <;> simp [applyToItem, h]
  | setCompleted j url => by_cases h : i.id = j <;> simp [applyToItem, h]
  | setError j msg => by_cases h : i.id = j <;> simp [applyToItem, h]

theorem applyToItem_of_ne (e : BatchEvent) (i : BatchItem)
    (h : i.id ≠ e.targetId) : applyToItem e i = i := by
  cases e with
  | setProcessing j => simp [BatchEvent.targetId] at h; simp [applyToItem, h]
  | setCompleted j url => simp [BatchEvent.targetId] at h; simp [applyToItem, h]
  | setError j msg => simp [BatchEvent.targetId] at h; simp [applyToItem, h]

/-- Replaying a trace elementwise: every `setBatchItems` update is a map
over the list, so the whole trace acts independently on each item. -/
theorem applyEvents_eq_map (es : List BatchEvent) (items : List BatchItem) :
    applyEvents items es =
      items.map (fun i => es.foldl (fun j e => applyToItem e j) i) := by
  induction es generalizing items with
  | nil => simp [applyEvents]
  | cons e es ih =>
    show applyEvents (applyEvent items e) es = _
    rw [ih, applyEvent, List.map_map]
    simp [Function.comp, List.foldl_cons]

/-- A trace whose events all target other ids leaves an item unchanged. -/
theorem foldl_applyToItem_of_notMem (es : List BatchEvent) (i : BatchItem)
    (h : ∀ e ∈ es, i.id ≠ e.targetId) :
    es.foldl (fun j e => applyToItem e j) i = i := by
  induction es with
  | nil => rfl
  | cons e es ih =>
    rw [List.foldl_cons, applyToItem_of_ne e i (h e (by simp))]
    exact ih (fun e2 he2 => h e2 (by simp [he2]))

/-- Every event emitted by the loop targets the id of one of the looped
items. -/
theorem processBatchEvents_targets (oracle : String → String → ℚ → Except String String)
    (v : String) (sp : ℚ) (l : List BatchItem) :
    ∀ e ∈ (processBatchEvents oracle v sp l).1, e.targetId ∈ l.map (fun it => it.id) := by
  induction l with
  | nil => intro e he; simp [processBatchEvents] at he
  | cons it rest ih =>
    intro e he
    rw [processBatchEvents] at he
    rcases hres : oracle (jsTrim it.text) v sp with u | u <;>
      rw [hres] at he <;> simp at he <;>
      rcases he with h | h | h <;>
      first
        | (subst h; simp [BatchEvent.targetId])
        | (simp; exact Or.inr (by simpa using ih e h))

/-- The trace preserves every item's id. -/
theorem foldl_applyToItem_id (es : List BatchEvent) (i : BatchItem) :
    (es.foldl (fun j e => applyToItem e j) i).id = i.id := by
  induction es generalizing i with
  | nil => rfl
  | cons e es ih => rw [List.foldl_cons, ih, applyToItem_id]

/-- The trace preserves every item's text. -/
theorem foldl_applyToItem_text (es : List BatchEvent) (i : BatchItem) :
    (es.foldl (fun j e => applyToItem e j) i).text = i.text := by
  induction es generalizing i with
  | nil => rfl
  | cons e es ih => rw [List.foldl_cons, ih, applyToItem_text]

/-- The loop sends exactly the looped items to `processing`, in FIFO
order. -/
theorem processingIds_processBatchEvents
    (oracle : String → String → ℚ → Except String String)
    (v : String) (sp : ℚ) (l : List BatchItem) :
    processingIds (processBatchEvents oracle v sp l).1 = l.map (fun it => it.id) := by
  induction l with
  | nil => rfl
  | cons it rest ih =>
    rw [processBatchEvents]
    rcases hres : oracle (jsTrim it.text) v sp with u | u <;>
      simpa [processingIds] using ih

/-- The loop calls the collaborator once per looped item, in order, on
the item's trimmed snapshot text with the single captured voice and
speed. -/
theorem calls_processBatchEvents
    (oracle : String → String → ℚ → Except String String)
    (v : String) (sp : ℚ) (l : List BatchItem) :
    (processBatchEvents oracle v sp l).2 =
      l.map (fun it => ⟨jsTrim it.text, v, sp⟩) := by
  induction l with
  | nil => rfl
  | cons it rest ih =>
    rw [processBatchEvents]
    rcases hres : oracle (jsTrim it.text) v sp with u | u <;> simpa using ih

/-- After the loop has run over `l`, every item whose id occurs in `l`
is in a terminal status. -/
theorem foldl_processBatchEvents_terminal
    (oracle : String → String → ℚ → Except String String)
    (v : String) (sp : ℚ) (l : List BatchItem) (j : BatchItem)
    (hj : j.id ∈ l.map (fun it => it.id)) :
    ((processBatchEvents oracle v sp l).1.foldl
        (fun i e => applyToItem e i) j).status.isTerminal = true := by
  induction l generalizing j with
  | nil => simp at hj
  | cons it rest ih =>
    by_cases hmem : j.id ∈ rest.map (fun i2 => i2.id)
    · rw [processBatchEvents]
      rcases hres : oracle (jsTrim it.text) v sp with u | u
      · rw [List.foldl_cons, List.foldl_cons]
        exact ih _ (by rw [applyToItem_id, applyToItem_id]; exact hmem)
      · rw [List.foldl_cons, List.foldl_cons]
        exact ih _ (by rw [applyToItem_id, applyToItem_id]; exact hmem)
    · have hid : j.id = it.id := by
        simp at hj hmem
        tauto
      rw [processBatchEvents]
      rcases hres : oracle (jsTrim it.text) v sp with u | u
      · rw [List.foldl_cons, List.foldl_cons]
        have h1 : applyToItem (.setProcessing it.id) j =
            { j with status := .processing } := by
          simp [applyToItem, hid]
        have h2 : applyToItem (.setError it.id "Failed to generate")
            { j with status := BatchStatus.processing } =
            { j with status := .error, errorDetail := some "Failed to generate" } := by
          simp [applyToItem, hid]
        rw [h1, h2, foldl_applyToItem_of_notMem]
        · rfl
        · intro e he hcontra
          apply hmem
          have ht := processBatchEvents_targets oracle v sp rest e he
          have hc2 : j.id = e.targetId := hcontra
          rw [hc2]
          exact ht
      · rw [List.foldl_cons, List.foldl_cons]
        have h1 : applyToItem (.setProcessing it.id) j =
            { j with status := .processing } := by
          simp [applyToItem, hid]
        have h2 : applyToItem (.setCompleted it.id u)
            { j with status := BatchStatus.processing } =
            { j with status := .completed, audioUrl := some u } := by
          simp [applyToItem, hid]
        rw [h1, h2, foldl_applyToItem_of_notMem]
        · rfl
        · intro e he hcontra
          apply hmem
          have ht := processBatchEvents_targets oracle v sp rest e he
          have hc2 : j.id = e.targetId := hcontra
          rw [hc2]
          exact ht

/-- Closed form of the loop's effect on one item when ids are unique:
the item ends `completed` with the url, or `error` with the literal
detail string, according to the single oracle call on its text. -/
theorem foldl_processBatchEvents_of_nodup
    (oracle : String → String → ℚ → Except String String)
    (v : String) (sp : ℚ) (l : List BatchItem) (j : BatchItem)
    (hnd : (l.map (fun it => it.id)).Nodup) (hj : j ∈ l) :
    (processBatchEvents oracle v sp l).1.foldl (fun i e => applyToItem e i) j =
      match oracle (jsTrim j.text) v sp with
      | .ok url => { j with status := .completed, audioUrl := some url }
      | .error _ =>
          { j with status := .error, errorDetail := some "Failed to generate" } := by
  induction l with
  | nil => simp at hj
  | cons it rest ih =>
    rw [List.map_cons, List.nodup_cons] at hnd
    rcases List.mem_cons.mp hj with hj1 | hj2
    · subst hj1
      rw [processBatchEvents]
      rcases hres : oracle (jsTrim j.text) v sp with u | u
      · rw [List.foldl_cons, List.foldl_cons]
        have h1 : applyToItem (.setProcessing j.id) j =
            { j with status := .processing } := by
          simp [applyToItem]
        have h2 : applyToItem (.setError j.id "Failed to generate")
            { j with status := BatchStatus.processing } =
            { j with status := .error, errorDetail := some "Failed to generate" } := by
          simp [applyToItem]
        rw [h1, h2, foldl_applyToItem_of_notMem]
        · intro e he hcontra
          apply hnd.1
          have ht := processBatchEvents_targets oracle v sp rest e he
          have hc2 : j.id = e.targetId := hcontra
          rw [hc2]
          exact ht
      · rw [List.foldl_cons, List.foldl_cons]
        have h1 : applyToItem (.setProcessing j.id) j =
            { j with status := .processing } := by
          simp [applyToItem]
        have h2 : applyToItem (.setCompleted j.id u)
            { j with status := BatchStatus.processing } =
            { j with status := .completed, audioUrl := some u } := by
          simp [applyToItem]
        rw [h1, h2, foldl_applyToItem_of_notMem]
        · intro e he hcontra
          apply hnd.1
          have ht := processBatchEvents_targets oracle v sp rest e he
          have hc2 : j.id = e.targetId := hcontra
          rw [hc2]
          exact ht
    · have hne : j.id ≠ it.id := by
        intro hcontra
        apply hnd.1
        rw [← hcontra]
        exact List.mem_map.mpr ⟨j, hj2, rfl⟩
      rw [processBatchEvents]
      rcases hres : oracle (jsTrim it.text) v sp with u | u
      · rw [List.foldl_cons, List.foldl_cons,
            applyToItem_of_ne (.setProcessing it.id) j
              (by simpa [BatchEvent.targetId] using hne),
            applyToItem_of_ne _ j (by simpa [BatchEvent.targetId] using hne)]
        exact ih hnd.2 hj2
      · rw [List.foldl_cons, List.foldl_cons,
            applyToItem_of_ne (.setProcessing it.id) j
              (by simpa [BatchEvent.targetId] using hne),
            applyToItem_of_ne _ j (by simpa [BatchEvent.targetId] using hne)]
        exact ih hnd.2 hj2

/-- The ids of the filtered snapshot stay duplicate-free when the batch
list's ids are. -/
theorem nodup_filterValid_ids (items : List BatchItem)
    (hnd : (items.map (fun it => it.id)).Nodup) :
    ((filterValid items).map (fun it => it.id)).Nodup :=
  List.Nodup.sublist (List.Sublist.map _ (List.filter_sublist items)) hnd

/-- With duplicate-free ids, an item that fails the filter shares no id
with the filtered snapshot. -/
theorem id_notMem_filterValid (items : List BatchItem) (j : BatchItem)
    (hnd : (items.map (fun it => it.id)).Nodup)
    (hj : j ∈ items) (hinv : jsTrim j.text = "") :
    j.id ∉ (filterValid items).map (fun it => it.id) := by
  intro hcontra
  rcases List.mem_map.mp hcontra with ⟨i, hi, hid⟩
  have hi2 : i ∈ items ∧ jsTrim i.text ≠ "" := by
    have := List.mem_filter.mp hi
    simpa using this
  have : i = j := List.inj_on_of_nodup_map hnd hi2.1 hj hid
  exact hi2.2 (this ▸ hinv)

/-- Destructing a completed `processBatch` run: the filtered snapshot is
non-empty and the trace and calls are those of the loop over it. -/
theorem processBatch_ran_inv
    (oracle : String → String → ℚ → Except String String)
    (v : String) (sp : ℚ) (items : List BatchItem)
    (ev : List BatchEvent) (cs : List SpeechCall)
    (h : processBatch oracle v sp items = .ran ev cs) :
    (filterValid items).isEmpty = false ∧
      ev = (processBatchEvents oracle v sp (filterValid items)).1 ∧
      cs = (processBatchEvents oracle v sp (filterValid items)).2 := by
  unfold processBatch at h
  by_cases hemp : (filterValid items).isEmpty
  · rw [if_pos hemp] at h
    exact absurd h (by simp)
  · rw [if_neg hemp] at h
    injection h with h1 h2
    exact ⟨by simpa using hemp, h1.symm, h2.symm⟩

/-- Inverting a successful `handleGenerate` run: the record's fields, the
oracle call that produced its url, the updated state and the single call
made. -/
theorem handleGenerate_success_inv
    (oracle : String → String → ℚ → Except String String)
    (newId : String) (now : Nat) (s : AppState) (r : ConversionHistory)
    (s2 : AppState) (cs : List SpeechCall)
    (h : handleGenerate oracle newId now s = (.success r, s2, cs)) :
    r = { id := newId, text := jsTrim s.text, voice := s.voice, speed := s.speed,
          pitch := s.pitch, audioUrl := r.audioUrl, createdAt := now } ∧
    oracle (jsTrim s.text) s.voice s.speed = .ok r.audioUrl ∧
    s2 = { s with currentAudio := some r.audioUrl,
                  history := appendHistory r s.history,
                  persisted := appendHistory r s.history } ∧
    cs = [⟨jsTrim s.text, s.voice, s.speed⟩] := by
  unfold handleGenerate at h
  split at h
  · exact absurd h (by simp)
  · split at h
    · exact absurd h (by simp)
    · rcases hres : oracle (jsTrim s.text) s.voice s.speed with u | u
      · rw [hres] at h
        exact absurd h (by simp)
      · rw [hres] at h
        simp only [appendHistory, Prod.mk.injEq, GenerateResult.success.injEq] at h
        obtain ⟨h1, h2, h3⟩ := h
        subst h1
        subst h2
        subst h3
        exact ⟨rfl, rfl, rfl, rfl⟩

/-- C1: for every input text empty after trimming, and for every input
whose trimmed length exceeds 4000, `handleGenerate` returns the matching
validation error — the empty-text check first, each short-circuiting
with its own message — makes no collaborator call, and leaves the whole
state (history, persisted history, current audio) unchanged.  (The
source's length guard tests the untrimmed `text.length`; it fires on
every text whose trimmed length exceeds 4000 because trimming never
lengthens a string.) -/
theorem C1_generate_validation
    (oracle : String → String → ℚ → Except String String)
    (newId : String) (now : Nat) (s : AppState)
    (h : jsTrim s.text = "" ∨ 4000 < (jsTrim s.text).length) :
    handleGenerate oracle newId now s =
      (.validationError
        (if jsTrim s.text = "" then "Please enter some text to convert"
         else "Text is too long. Please keep it under 4000 characters."),
       s, []) := by
  rcases h with h | h
  · simp [handleGenerate, h]
  · have hne : jsTrim s.text ≠ "" := by
      intro he
      rw [he] at h
      simp at h
    have hlen : 4000 < s.text.length := lt_of_lt_of_le h (jsTrim_length_le s.text)
    simp [handleGenerate, hne, hlen]

/-- Witness for C1 at the whitespace-only input "   ". -/
theorem C1_generate_validation_witness :
    (jsTrim "   " = "" ∨ 4000 < (jsTrim "   ").length) ∧
    handleGenerate constOracle "1" 0
      { text := "   ", voice := "nova", speed := 1, pitch := 1,
        currentAudio := none, history := [], persisted := [] } =
      (.validationError
        (if jsTrim "   " = "" then "Please enter some text to convert"
         else "Text is too long. Please keep it under 4000 characters."),
       { text := "   ", voice := "nova", speed := 1, pitch := 1,
         currentAudio := none, history := [], persisted := [] }, []) :=
  ⟨Or.inl (by decide),
   C1_generate_validation constOracle "1" 0
     { text := "   ", voice := "nova", speed := 1, pitch := 1,
       currentAudio := none, history := [], persisted := [] }
     (Or.inl (by decide))⟩

/-- C2: every successful single generation yields a record whose
sourceText is the trimmed input, whose voice, speed and pitch are the
selected values and whose audio reference is exactly the url the
collaborator returned; the record is prepended to the history, the
updated history is persisted, and the record is what the run returns.
Starting from empty history the history length becomes 1. -/
theorem C2_generate_success
    (oracle : String → String → ℚ → Except String String)
    (newId : String) (now : Nat) (s : AppState) (r : ConversionHistory)
    (s2 : AppState) (cs : List SpeechCall)
    (h : handleGenerate oracle newId now s = (.success r, s2, cs)) :
    r.text = jsTrim s.text ∧ r.voice = s.voice ∧ r.speed = s.speed ∧
    r.pitch = s.pitch ∧ r.id = newId ∧ r.createdAt = now ∧
    oracle (jsTrim s.text) s.voice s.speed = .ok r.audioUrl ∧
    s2.history = appendHistory r s.history ∧
    s2.history.head? = some r ∧
    s2.persisted = s2.history ∧
    s2.currentAudio = some r.audioUrl ∧
    (s.history = [] → s2.history.length = 1) := by
  obtain ⟨h1, h2, h3, _⟩ := handleGenerate_success_inv oracle newId now s r s2 cs h
  refine ⟨?_, ?_, ?_, ?_, ?_, ?_, h2, ?_, ?_, ?_, ?_, ?_⟩
  · rw [h1]
  · rw [h1]
  · rw [h1]
  · rw [h1]
  · rw [h1]
  · rw [h1]
  · rw [h3]
  · rw [h3, appendHistory]
    rfl
  · rw [h3]
  · rw [h3]
  · intro he
    rw [h3, appendHistory, he]
    rfl

/-- Witness for C2: the spec's concrete scenario — text "Hello world",
voice "nova", speed 1, empty history; the collaborator succeeds with a
non-empty url, the returned record carries the selected values and the
history length becomes 1. -/
theorem C2_generate_success_witness :
    handleGenerate audioOracle "1" 0 helloState =
      (.success helloRecord, helloState2, [⟨"Hello world", "nova", 1⟩]) ∧
    (helloRecord.text = jsTrim helloState.text ∧
     helloRecord.voice = helloState.voice ∧
     helloRecord.speed = helloState.speed ∧
     helloRecord.pitch = helloState.pitch ∧
     helloRecord.id = "1" ∧ helloRecord.createdAt = 0 ∧
     audioOracle (jsTrim helloState.text) helloState.voice helloState.speed =
       .ok helloRecord.audioUrl ∧
     helloState2.history = appendHistory helloRecord helloState.history ∧
     helloState2.history.head? = some helloRecord ∧
     helloState2.persisted = helloState2.history ∧
     helloState2.currentAudio = some helloRecord.audioUrl ∧
     (helloState.history = [] → helloState2.history.length = 1)) ∧
    helloRecord.text = "Hello world" ∧ helloRecord.voice = "nova" ∧
    helloRecord.speed = 1 ∧ helloRecord.audioUrl ≠ "" ∧
    helloState2.history.length = 1 :=
  ⟨by decide,
   C2_generate_success audioOracle "1" 0 helloState helloRecord helloState2
     [⟨"Hello world", "nova", 1⟩] (by decide),
   by decide, by decide, by decide, by decide, by decide⟩

/-- C5: the history append prepends the new record newest-first and
truncates to at most 10 records before persisting; after any append the
sequence has length at most 10, and 11 consecutive appends starting from
empty leave exactly the 10 newest records, newest-first, the oldest
evicted. -/
theorem C5_history_bounded :
    (∀ (r : ConversionHistory) (h : List ConversionHistory),
       (appendHistory r h).length ≤ 10) ∧
    (∀ (r : ConversionHistory) (h : List ConversionHistory),
       (appendHistory r h).head? = some r) ∧
    appendAll
        [mkRec 1, mkRec 2, mkRec 3, mkRec 4, mkRec 5, mkRec 6,
         mkRec 7, mkRec 8, mkRec 9, mkRec 10, mkRec 11] [] =
      [mkRec 11, mkRec 10, mkRec 9, mkRec 8, mkRec 7, mkRec 6,
       mkRec 5, mkRec 4, mkRec 3, mkRec 2] := by
  refine ⟨?_, ?_, ?_⟩
  · intro r h
    simp [appendHistory]
  · intro r h
    rfl
  · decide

/-- C6: when validation passes but the collaborator call rejects,
`handleGenerate` surfaces exactly one categorized error, makes exactly
one collaborator call (no automatic retry), creates no record, and
leaves the whole state — in-memory history, persisted history and
current audio — exactly as it was. -/
theorem C6_generate_failure_no_record
    (oracle : String → String → ℚ → Except String String)
    (newId : String) (now : Nat) (s : AppState) (e : String)
    (hne : jsTrim s.text ≠ "") (hlen : s.text.length ≤ 4000)
    (hf : oracle (jsTrim s.text) s.voice s.speed = .error e) :
    handleGenerate oracle newId now s =
      (.generationFailure "Failed to generate speech. Please try again.", s,
       [⟨jsTrim s.text, s.voice, s.speed⟩]) := by
  have hgt : ¬s.text.length > 4000 := by omega
  simp [handleGenerate, hne, hgt, hf]

/-- Witness for C6 at text "Hello world" with a rejecting collaborator. -/
theorem C6_generate_failure_no_record_witness :
    (jsTrim helloState.text ≠ "" ∧ helloState.text.length ≤ 4000 ∧
     rejectOracle (jsTrim helloState.text) helloState.voice helloState.speed =
       .error "network") ∧
    handleGenerate rejectOracle "1" 0 helloState =
      (.generationFailure "Failed to generate speech. Please try again.",
       helloState, [⟨jsTrim helloState.text, helloState.voice, helloState.speed⟩]) :=
  ⟨⟨by decide, by decide, rfl⟩,
   C6_generate_failure_no_record rejectOracle "1" 0 helloState "network"
     (by decide) (by decide) rfl⟩

/-- C8: the derived position fraction (elapsed over duration) lies in
[0, 1] at every sampled instant during playback (the collaborator
reports 0 ≤ elapsed ≤ duration with positive duration while playing);
the stored progress is that fraction scaled to a percentage, and it
resets to 0 — with playback motion stopped — after `handleStop` and
after the natural-end `finish` callback. -/
theorem C8_position_fraction_bounds :
    (∀ t d : ℚ, 0 ≤ t → t ≤ d → 0 < d →
       0 ≤ positionFraction t d ∧ positionFraction t d ≤ 1) ∧
    (∀ st : PlayerState, handleStop st = { isPlaying := false, progress := 0 }) ∧
    (∀ st : PlayerState, onWaveEvent st .finish = { isPlaying := false, progress := 0 }) ∧
    (∀ (st : PlayerState) (t d : ℚ),
       (onWaveEvent st (.audioprocess t d)).progress = positionFraction t d * 100) := by
  refine ⟨?_, ?_, ?_, ?_⟩
  · intro t d h0 htd hd
    constructor
    · exact div_nonneg h0 (le_of_lt hd)
    · rw [positionFraction, div_le_one hd]
      exact htd
  · intro st
    rfl
  · intro st
    rfl
  · intro st t d
    rfl

/-- Witness for C8 at a sampled instant with elapsed 1 and duration 2. -/
theorem C8_position_fraction_bounds_witness :
    ((0 : ℚ) ≤ 1 ∧ (1 : ℚ) ≤ 2 ∧ (0 : ℚ) < 2) ∧
    (0 ≤ positionFraction 1 2 ∧ positionFraction 1 2 ≤ 1) :=
  ⟨⟨by norm_num, by norm_num, by norm_num⟩,
   C8_position_fraction_bounds.1 1 2 (by norm_num) (by norm_num) (by norm_num)⟩

/-- C3: a batch run filters to the items with non-empty trimmed text; an
empty filtered set is exactly the validation-error outcome, which emits
no event and no collaborator call; otherwise every emitted event targets
a filtered item and the `processing` transitions happen exactly once per
filtered item, in submission (FIFO) order — so an item with empty
trimmed text never reaches `processing`. -/
theorem C3_batch_filter_fifo
    (oracle : String → String → ℚ → Except String String)
    (v : String) (sp : ℚ) (items : List BatchItem) :
    (processBatch oracle v sp items = .validationError ↔ filterValid items = []) ∧
    (∀ (ev : List BatchEvent) (cs : List SpeechCall),
       processBatch oracle v sp items = .ran ev cs →
       processingIds ev = (filterValid items).map (fun it => it.id) ∧
       (∀ e ∈ ev, e.targetId ∈ (filterValid items).map (fun it => it.id))) := by
  constructor
  · constructor
    · intro h
      by_contra hne
      unfold processBatch at h
      rw [if_neg (by simpa [List.isEmpty_iff] using hne)] at h
      exact absurd h (by simp)
    · intro h
      unfold processBatch
      rw [if_pos (by simp [h])]
  · intro ev cs h
    obtain ⟨_, hev, _⟩ := processBatch_ran_inv oracle v sp items ev cs h
    subst hev
    exact ⟨processingIds_processBatchEvents oracle v sp (filterValid items),
           processBatchEvents_targets oracle v sp (filterValid items)⟩

/-- Witness for C3: on `[A(valid), B(empty), C(valid)]` exactly A then C
are processed, in that order, and no event ever targets B. -/
theorem C3_batch_filter_fifo_witness :
    processBatch demoOracle "nova" 1 demoItems = .ran demoEvents demoCalls ∧
    processingIds demoEvents = (filterValid demoItems).map (fun it => it.id) ∧
    (filterValid demoItems).map (fun it => it.id) = ["a", "c"] ∧
    demoEvents.all (fun e => e.targetId != "b") = true :=
  ⟨by decide,
   ((C3_batch_filter_fifo demoOracle "nova" 1 demoItems).2 demoEvents demoCalls
     (by decide)).1,
   by decide, by decide⟩

/-- C4: in any completed batch run, every filtered item has reached a
terminal status by the time completion is signaled (the end of the event
trace), no failure halts the loop — the `processing` transitions still
cover every filtered item in order — and, when item ids are unique, the
final list is the pointwise closed form: untouched for unfiltered items,
`completed` with the url on collaborator success, `error` with the
detail string "Failed to generate" on collaborator failure. -/
theorem C4_batch_failure_no_halt
    (oracle : String → String → ℚ → Except String String)
    (v : String) (sp : ℚ) (items : List BatchItem)
    (ev : List BatchEvent) (cs : List SpeechCall)
    (h : processBatch oracle v sp items = .ran ev cs) :
    (∀ x ∈ applyEvents items ev, jsTrim x.text ≠ "" → x.status.isTerminal = true) ∧
    processingIds ev = (filterValid items).map (fun it => it.id) ∧
    ((items.map (fun it => it.id)).Nodup →
      applyEvents items ev = items.map (fun j =>
        if jsTrim j.text = "" then j
        else
          match oracle (jsTrim j.text) v sp with
          | .ok url => { j with status := .completed, audioUrl := some url }
          | .error _ =>
              { j with status := .error,
                       errorDetail := some "Failed to generate" })) := by
  obtain ⟨_, hev, _⟩ := processBatch_ran_inv oracle v sp items ev cs h
  subst hev
  refine ⟨?_, processingIds_processBatchEvents oracle v sp (filterValid items), ?_⟩
  · intro x hx hxt
    rw [applyEvents_eq_map] at hx
    rcases List.mem_map.mp hx with ⟨j, hj, rfl⟩
    rw [foldl_applyToItem_text] at hxt
    apply foldl_processBatchEvents_terminal
    exact List.mem_map.mpr ⟨j, List.mem_filter.mpr ⟨hj, by simpa using hxt⟩, rfl⟩
  · intro hnd
    rw [applyEvents_eq_map]
    apply List.map_congr_left
    intro j hj
    by_cases hval : jsTrim j.text = ""
    · rw [if_pos hval]
      apply foldl_applyToItem_of_notMem
      intro e he hcontra
      apply id_notMem_filterValid items j hnd hj hval
      rw [hcontra]
      exact processBatchEvents_targets oracle v sp (filterValid items) e he
    · rw [if_neg hval]
      exact foldl_processBatchEvents_of_nodup oracle v sp (filterValid items) j
        (nodup_filterValid_ids items hnd)
        (List.mem_filter.mpr ⟨hj, by simpa using hval⟩)

/-- Witness for C4: three valid items where item 2's collaborator call
fails end with final statuses `[completed, error, completed]`, the
failed item carrying an error detail, while every item was still sent
to `processing`. -/
theorem C4_batch_failure_no_halt_witness :
    processBatch bravoFailOracle "nova" 1 failItems = .ran failEvents failCalls ∧
    processingIds failEvents = (filterValid failItems).map (fun it => it.id) ∧
    (applyEvents failItems failEvents).map (fun i => i.status) =
      [.completed, .error, .completed] ∧
    (applyEvents failItems failEvents).map (fun i => i.errorDetail) =
      [none, some "Failed to generate", none] :=
  ⟨by decide,
   (C4_batch_failure_no_halt bravoFailOracle "nova" 1 failItems failEvents failCalls
     (by decide)).2.1,
   by decide, by decide⟩

/-- C10: a batch run is a pure function of its invocation-time snapshot —
the collaborator calls are exactly one per invocation-time filtered item,
in order, on the item's invocation-time trimmed text, every call using
the single invocation-time voice and the single invocation-time speed;
the `processing` transitions target exactly the invocation-time filtered
ids.  `processBatch` never reads the live `batchItems`, `voice` or
`speed` state after invocation, so later edits or additions cannot alter
what the run submits. -/
theorem C10_batch_snapshot
    (oracle : String → String → ℚ → Except String String)
    (v : String) (sp : ℚ) (items : List BatchItem)
    (ev : List BatchEvent) (cs : List SpeechCall)
    (h : processBatch oracle v sp items = .ran ev cs) :
    cs = (filterValid items).map (fun it => ⟨jsTrim it.text, v, sp⟩) ∧
    (∀ c ∈ cs, c.voice = v ∧ c.speed = sp) ∧
    processingIds ev = (filterValid items).map (fun it => it.id) := by
  obtain ⟨_, hev, hcs⟩ := processBatch_ran_inv oracle v sp items ev cs h
  subst hev
  subst hcs
  refine ⟨calls_processBatchEvents oracle v sp (filterValid items), ?_,
          processingIds_processBatchEvents oracle v sp (filterValid items)⟩
  intro c hc
  rw [calls_processBatchEvents] at hc
  rcases List.mem_map.mp hc with ⟨i, _, rfl⟩
  exact ⟨rfl, rfl⟩

/-- Witness for C10 on `[A(valid), B(empty), C(valid)]` at speed 2: the
run calls the collaborator exactly on the snapshot texts of A and C,
each call with voice "nova" and speed 2. -/
theorem C10_batch_snapshot_witness :
    processBatch demoOracle "nova" 2 demoItems =
      .ran [.setProcessing "a", .setCompleted "a" "url-Alpha",
            .setProcessing "c", .setCompleted "c" "url-Charlie"]
        [⟨"Alpha", "nova", 2⟩, ⟨"Charlie", "nova", 2⟩] ∧
    [(⟨"Alpha", "nova", 2⟩ : SpeechCall), ⟨"Charlie", "nova", 2⟩] =
      (filterValid demoItems).map
        (fun it => (⟨jsTrim it.text, "nova", 2⟩ : SpeechCall)) :=
  ⟨by decide,
   (C10_batch_snapshot demoOracle "nova" 2 demoItems
     [.setProcessing "a", .setCompleted "a" "url-Alpha",
      .setProcessing "c", .setCompleted "c" "url-Charlie"]
     [⟨"Alpha", "nova", 2⟩, ⟨"Charlie", "nova", 2⟩] (by decide)).1⟩

/-- The claim that every successful conversion flows to the History
Store fails for batch runs: this one-item batch succeeds — the item
completes with its audio url — yet the history and the persisted history
remain empty, because `processBatch` emits only `setBatchItems` updates
and never appends to or persists the history. -/
theorem C7_history_flow_counterexample :
    processBatch constOracle "nova" 1
        [{ id := "b1", text := "Hello", status := .pending, audioUrl := none,
           errorDetail := none }] =
      .ran [.setProcessing "b1", .setCompleted "b1" "u"] [⟨"Hello", "nova", 1⟩] ∧
    applyEventsFull
        { items := [{ id := "b1", text := "Hello", status := .pending,
                      audioUrl := none, errorDetail := none }],
          history := [], persisted := [] }
        [.setProcessing "b1", .setCompleted "b1" "u"] =
      { items := [{ id := "b1", text := "Hello", status := .completed,
                    audioUrl := some "u", errorDetail := none }],
        history := [], persisted := [] } :=
  ⟨by decide, by decide⟩

/-- C7 (amended): only single-item generations append their result to
the History Store and persist it; a batch run records the produced url
on the batch item alone — its event trace leaves the history and the
persisted history untouched. -/
theorem C7_history_flow_amended :
    (∀ (oracle : String → String → ℚ → Except String String)
       (newId : String) (now : Nat) (s : AppState) (r : ConversionHistory)
       (s2 : AppState) (cs : List SpeechCall),
       handleGenerate oracle newId now s = (.success r, s2, cs) →
       s2.history = appendHistory r s.history ∧ s2.persisted = s2.history) ∧
    (∀ (st : BatchRunState) (es : List BatchEvent),
       (applyEventsFull st es).history = st.history ∧
       (applyEventsFull st es).persisted = st.persisted) := by
  constructor
  · intro oracle newId now s r s2 cs h
    obtain ⟨_, _, h3, _⟩ := handleGenerate_success_inv oracle newId now s r s2 cs h
    rw [h3]
    exact ⟨rfl, rfl⟩
  · intro st es
    induction es generalizing st with
    | nil => exact ⟨rfl, rfl⟩
    | cons e es ih =>
      constructor
      · show (applyEventsFull (applyEventFull st e) es).history = st.history
        rw [(ih (applyEventFull st e)).1]
        rfl
      · show (applyEventsFull (applyEventFull st e) es).persisted = st.persisted
        rw [(ih (applyEventFull st e)).2]
        rfl

/-- Witness for C7 (amended) at the concrete single-generation
scenario: the produced record is appended and the appended history is
persisted. -/
theorem C7_history_flow_amended_witness :
    handleGenerate audioOracle "1" 0 helloState =
      (.success helloRecord, helloState2, [⟨"Hello world", "nova", 1⟩]) ∧
    (helloState2.history = appendHistory helloRecord helloState.history ∧
     helloState2.persisted = helloState2.history) :=
  ⟨by decide,
   C7_history_flow_amended.1 audioOracle "1" 0 helloState helloRecord helloState2
     [⟨"Hello world", "nova", 1⟩] (by decide)⟩

/-- The claim that non-`pending` batch items cannot be edited fails on
the code: `updateBatchItem` rewrites the text of a `completed` item just
as well — the only editing guard in the source is the textarea being
disabled while the status is `processing`. -/
theorem C9_pending_edit_counterexample :
    ({ id := "b1", text := "old", status := .completed, audioUrl := some "u",
       errorDetail := none } : BatchItem).status ≠ .pending ∧
    updateBatchItem "b1" "new"
        [{ id := "b1", text := "old", status := .completed, audioUrl := some "u",
           errorDetail := none }] =
      [{ id := "b1", text := "new", status := .completed, audioUrl := some "u",
         errorDetail := none }] :=
  ⟨by decide, by decide⟩

/-- C9 (amended): `updateBatchItem` rewrites the matching item's text
regardless of its status — preserving id, status, audio url and error
detail — and the batch editor disables text entry exactly while the
item's status is `processing`, so items in `pending`, `completed` and
`error` states all remain editable. -/
theorem C9_pending_edit_amended :
    (∀ (id txt : String) (items : List BatchItem),
       ∀ j ∈ updateBatchItem id txt items,
         ∃ i ∈ items, j.id = i.id ∧ j.status = i.status ∧
           j.audioUrl = i.audioUrl ∧ j.errorDetail = i.errorDetail ∧
           j.text = (if i.id = id then txt else i.text)) ∧
    (∀ i : BatchItem, batchTextareaDisabled i = true ↔ i.status = .processing) := by
  constructor
  · intro id txt items j hj
    rw [updateBatchItem] at hj
    rcases List.mem_map.mp hj with ⟨i, hi, rfl⟩
    refine ⟨i, hi, ?_⟩
    by_cases h : i.id = id
    · simp [h]
    · simp [h]
  · intro i
    simp [batchTextareaDisabled]

/-- Witness for C9 (amended): editing a `completed` item rewrites its
text while preserving every other field. -/
theorem C9_pending_edit_amended_witness :
    ({ id := "b1", text := "new", status := .completed, audioUrl := some "u",
       errorDetail := none } : BatchItem) ∈
      updateBatchItem "b1" "new"
        [{ id := "b1", text := "old", status := .completed, audioUrl := some "u",
           errorDetail := none }] ∧
    (∃ i ∈ [({ id := "b1", text := "old", status := .completed,
               audioUrl := some "u", errorDetail := none } : BatchItem)],
       ({ id := "b1", text := "new", status := .completed, audioUrl := some "u",
          errorDetail := none } : BatchItem).id = i.id ∧
       ({ id := "b1", text := "new", status := .completed, audioUrl := some "u",
          errorDetail := none } : BatchItem).status = i.status ∧
       ({ id := "b1", text := "new", status := .completed, audioUrl := some "u",
          errorDetail := none } : BatchItem).audioUrl = i.audioUrl ∧
       ({ id := "b1", text := "new", status := .completed, audioUrl := some "u",
          errorDetail := none } : BatchItem).errorDetail = i.errorDetail ∧
       ({ id := "b1", text := "new", status := .completed, audioUrl := some "u",
          errorDetail := none } : BatchItem).text =
         (if i.id = "b1" then "new" else i.text)) :=
  ⟨by decide,
   C9_pending_edit_amended.1 "b1" "new"
     [{ id := "b1", text := "old", status := .completed, audioUrl := some "u",
        errorDetail := none }]
     { id := "b1", text := "new", status := .completed, audioUrl := some "u",
       errorDetail := none }
     (by decide)⟩
